import Mathlib

/-!
Verification of the transaction analytics engine of `accounts/data_analysis.py`
(functions `analyze_transactions` and `get_spending_insights`), shallowly
embedded over lists of records.  Pandas frames are modelled as a column list
plus a row list; cell parsing outcomes of `pd.read_csv` / `pd.to_datetime`
are carried explicitly; rational numbers stand for the float amounts.
-/

namespace FinPlanner

/-- A timestamp as produced by `pd.to_datetime` (proleptic Gregorian calendar).
The engine only ever reads year, month bucket, day-of-month, weekday and hour. -/
structure Date where
  year : Nat
  month : Nat
  day : Nat
  hour : Nat
deriving DecidableEq, Repr

/-- Gregorian leap-year rule (`calendar.isleap` semantics, used by pandas). -/
def isLeap (y : Nat) : Bool :=
  (y % 4 == 0 && y % 100 != 0) || y % 400 == 0

/-- Cumulative day count before month `m` (1-based) in a non-leap year. -/
def daysBeforeMonthBase (m : Nat) : Nat :=
  [0, 31, 59, 90, 120, 151, 181, 212, 243, 273, 304, 334].getD (m - 1) 0

/-- Cumulative day count before month `m` of a year with leap flag `leap`. -/
def daysBeforeMonth (leap : Bool) (m : Nat) : Nat :=
  if leap && decide (2 < m) then daysBeforeMonthBase m + 1 else daysBeforeMonthBase m

/-- Rata-die day number: 0001-01-01 is day 1 (a Monday). -/
def rataDie (d : Date) : Nat :=
  let y := d.year - 1
  365 * y + y / 4 - y / 100 + y / 400 + daysBeforeMonth (isLeap d.year) d.month + d.day

/-- Source `Timestamp.weekday()` / `dt.weekday`: Monday = 0 … Sunday = 6. -/
def weekday (d : Date) : Nat :=
  (rataDie d + 6) % 7

/-- The expenditure cell of one CSV row, as `pd.read_csv` sees it:
an empty (or `nan`) field reads as NaN, a numeric literal as a number, and any
other text stays a string (making the whole column `object` dtype). -/
inductive ExpCell where
  | empty : ExpCell
  | num : ℚ → ExpCell
  | text : String → ExpCell
deriving DecidableEq, Repr

/-- One raw record of the CSV record store.  `date_added` holds the outcome of
`pd.to_datetime(·, errors="coerce")` on the cell: `none` models NaT. -/
structure RawRow where
  product_name : String
  category : String
  expenditure : ExpCell
  date_added : Option Date
deriving DecidableEq, Repr

/-- A loaded dataframe: header columns plus data rows. -/
structure Frame where
  columns : List String
  rows : List RawRow
deriving DecidableEq, Repr

/-- A cleaned, numeric working row (post `dropna`, numeric expenditure). -/
structure Row where
  product_name : String
  category : String
  expenditure : ℚ
  date : Date
deriving DecidableEq, Repr

/-- Source `expected_cols = {'product_name', 'category', 'expenditure', 'date_added'}`. -/
def expected_cols : List String :=
  ["product_name", "category", "expenditure", "date_added"]

/-- Source `missing = expected_cols - set(df.columns)` (membership; the Python set
iteration order is immaterial, only which names appear). -/
def missingCols (f : Frame) : List String :=
  expected_cols.filter (fun c => ¬ f.columns.contains c)

/-- Whether an expenditure cell reads as NaN (only empty/`nan` fields do). -/
def isNaN : ExpCell → Bool
  | ExpCell.empty => true
  | _ => false

/-- Source `df.dropna(subset=['date_added', 'expenditure'])`: a row survives iff its
date parsed (not NaT) and its expenditure cell is not NaN.  A non-numeric
text cell is *not* NaN, so it survives. -/
def cleanRows (rows : List RawRow) : List RawRow :=
  rows.filter (fun r => r.date_added.isSome && ! isNaN r.expenditure)

/-- The expenditure column has numeric dtype iff no cell is non-numeric text
(`pd.read_csv` keeps the column numeric exactly when every field parses). -/
def expColumnNumeric (rows : List RawRow) : Bool :=
  rows.all (fun r => match r.expenditure with | ExpCell.text _ => false | _ => true)

/-- View a cleaned row of a numeric frame as a working row.  The fallback
values are unreachable on rows that survived `cleanRows` in a numeric column. -/
def toRow (r : RawRow) : Row :=
  { product_name := r.product_name
    category := r.category
    expenditure := match r.expenditure with | ExpCell.num q => q | _ => 0
    date := r.date_added.getD ⟨1, 1, 1, 0⟩ }

/-- The cleaned numeric working set of a frame. -/
def workingRows (f : Frame) : List Row :=
  (cleanRows f.rows).map toRow

/-! ### Generic groupby machinery (`df.groupby(k)[v].sum()` et al.) -/

/-- Distinct keys in first-occurrence order. -/
def distinctKeys {κ : Type} [DecidableEq κ] (l : List κ) : List κ :=
  l.foldl (fun acc k => if k ∈ acc then acc else acc.concat k) []

/-- Source `groupby(key)[val].sum()` with `sort=True`: one `(key, sum)` pair per
distinct key, keys sorted ascending by `le`. -/
def groupSum {α κ : Type} [DecidableEq κ] (le : κ → κ → Bool)
    (key : α → κ) (val : α → ℚ) (l : List α) : List (κ × ℚ) :=
  ((distinctKeys (l.map key)).mergeSort le).map
    (fun k => (k, ((l.filter (fun a => decide (key a = k))).map val).sum))

/-- Python `str` comparison: code-point lexicographic. -/
def charListLe : List Char → List Char → Bool
  | [], _ => true
  | _ :: _, [] => false
  | a :: as, b :: bs =>
      if a.val < b.val then true else if b.val < a.val then false else charListLe as bs

/-- String ≤ as pandas sorts category labels. -/
def strLe (a b : String) : Bool :=
  charListLe a.data b.data

/-- Chronological order on month buckets `(year, month)`; coincides with the
lexicographic string order on the `"YYYY-MM"` labels of `to_period('M')`. -/
def monthLe (a b : Nat × Nat) : Bool :=
  a.1 < b.1 || (a.1 == b.1 && a.2 ≤ b.2)

/-- Chronological order on calendar dates `(year, month, day)`. -/
def dayLe (a b : Nat × Nat × Nat) : Bool :=
  a.1 < b.1 || (a.1 == b.1 && monthLe a.2 b.2)

/-- The month bucket of a working row (`dt.to_period('M')`). -/
def monthKey (r : Row) : Nat × Nat :=
  (r.date.year, r.date.month)

/-- The calendar-date key of a working row (`dt.date`). -/
def dayKey (r : Row) : Nat × Nat × Nat :=
  (r.date.year, r.date.month, r.date.day)

/-- Source `Series.idxmax()`: key of the first maximal value; raises
`ValueError` on an empty series. -/
def idxmax {κ : Type} : List (κ × ℚ) → Except String κ
  | [] => Except.error "attempt to get argmax of an empty sequence"
  | p :: ps => Except.ok (ps.foldl (fun best q => if best.2 < q.2 then q else best) p).1

/-! ### Summary statistics (lines 44-51 of `data_analysis.py`) -/

/-- Source `df['expenditure'].sum()`. -/
def total_spent (rows : List Row) : ℚ :=
  (rows.map Row.expenditure).sum

/-- Source `df['expenditure'].mean()` (the value 0/0 = 0 stands for the NaN a mean
of an empty series yields; the engine only reads it on non-empty data). -/
def avg_spent (rows : List Row) : ℚ :=
  total_spent rows / rows.length

/-- Source `df['expenditure'].median()`: midpoint of the two middle order statistics. -/
def median_spent (rows : List Row) : ℚ :=
  let s := (rows.map Row.expenditure).mergeSort (fun a b => decide (a ≤ b))
  let n := s.length
  if n % 2 == 1 then s.getD (n / 2) 0
  else (s.getD (n / 2 - 1) 0 + s.getD (n / 2) 0) / 2

/-- Source `Series.max()` of a rational series (0 stands for the empty-series NaN). -/
def seriesMax : List ℚ → ℚ
  | [] => 0
  | x :: xs => xs.foldl max x

/-- Source `df['expenditure'].max()`. -/
def max_spent (rows : List Row) : ℚ :=
  seriesMax (rows.map Row.expenditure)

/-- Source `df['expenditure'].min()` (0 stands for the empty-series NaN). -/
def min_spent (rows : List Row) : ℚ :=
  match rows.map Row.expenditure with
  | [] => 0
  | x :: xs => xs.foldl min x

/-- The square of `df['expenditure'].std()`: the sample (N−1) variance.  The
standard deviation itself is its (possibly irrational) square root, so the
embedding carries the variance. -/
def var_spent (rows : List Row) : ℚ :=
  let m := avg_spent rows
  ((rows.map (fun r => (r.expenditure - m) ^ 2)).sum) / (rows.length - 1 : ℕ)

/-- Source `df.groupby('category')['expenditure'].sum()` — ascending label order. -/
def category_totals (rows : List Row) : List (String × ℚ) :=
  groupSum strLe Row.category Row.expenditure rows

/-- Source `df.groupby('category')['expenditure'].sum().idxmax()` (line 50). -/
def top_cat (rows : List Row) : Except String String :=
  idxmax (category_totals rows)

/-- Source `df['category'].value_counts()`: counts per label, sorted by count
descending, ties in first-occurrence order (stable sort). -/
def category_counts (rows : List Row) : List (String × Nat) :=
  ((distinctKeys (rows.map Row.category)).map
      (fun c => (c, (rows.filter (fun r => decide (r.category = c))).length))).mergeSort
    (fun a b => b.2 ≤ a.2)

/-- The scalar summary the engine interpolates into its summary string. -/
structure Summary where
  total : ℚ
  avg : ℚ
  median : ℚ
  max : ℚ
  min : ℚ
  variance : ℚ
  topCategory : String
  transaction_count : Nat
deriving DecidableEq, Repr

/-! ### Derived tables / chart payloads -/

/-- Source `df.groupby('month')['expenditure'].sum()` in chronological (string) key
order — the monthly series of the trend chart (line 89). -/
def monthly_data (rows : List Row) : List ((Nat × Nat) × ℚ) :=
  groupSum monthLe monthKey Row.expenditure rows

/-- Source `Series.cumsum()` with running accumulator. -/
def cumsumGo (acc : ℚ) : List ℚ → List ℚ
  | [] => []
  | x :: xs => (acc + x) :: cumsumGo (acc + x) xs

/-- Source `monthly_data['expenditure'].cumsum()` (line 90). -/
def cumsum (l : List ℚ) : List ℚ :=
  cumsumGo 0 l

/-- Source `df.groupby(df['date_added'].dt.date)['expenditure'].sum()` (line 199). -/
def daily_spending (rows : List Row) : List ((Nat × Nat × Nat) × ℚ) :=
  groupSum dayLe dayKey Row.expenditure rows

/-- Source `.rolling(window=7, min_periods=1).mean()` over a series (line 201): the
entry at position `i` is the mean of the trailing window of up to 7 values. -/
def ma_7 (l : List ℚ) : List ℚ :=
  (List.range l.length).map (fun i =>
    let w := (l.take (i + 1)).drop (i + 1 - 7)
    w.sum / (w.length : ℚ))

/-- Total order used by `df.nlargest(10, 'expenditure')` with the default
`keep='first'`: larger expenditure first, ties by original row position. -/
def nlargestLe (a b : Nat × Row) : Bool :=
  b.2.expenditure < a.2.expenditure ||
    (a.2.expenditure == b.2.expenditure && a.1 ≤ b.1)

/-- Lines 218-220: the top-10 table exists only when `len(df) >= 10`; rows are
paired with their original positions, sorted by `nlargestLe`, first ten kept. -/
def top_transactions (rows : List Row) : Option (List (Nat × Row)) :=
  if 10 ≤ rows.length then
    some ((rows.enum.mergeSort nlargestLe).take 10)
  else none

/-- Source `df.groupby('day')['expenditure'].sum()` (line 259). -/
def day_spending (rows : List Row) : List (Nat × ℚ) :=
  groupSum (fun a b => a ≤ b) (fun r => r.date.day) Row.expenditure rows

/-- Per-category mean and squared spread (`groupby('category').agg(['mean','std'])`,
line 290; spread carried as the sample variance, the square of `std`). -/
def category_stats (rows : List Row) : List (String × ℚ × ℚ) :=
  ((distinctKeys (rows.map Row.category)).mergeSort strLe).map (fun c =>
    let g := rows.filter (fun r => decide (r.category = c))
    (c, avg_spent g, var_spent g))

/-! ### Correlation matrix (lines 240-247)

`numerical_df[['expenditure','month_num','day_num','weekday']].corr()` is a
4×4 Pearson matrix.  An entry is `cov / sqrt(vx * vy)`; since the square root
is irrational the embedding represents a non-NaN entry by the pair
`(cov, vx * vy)` — the float value is determined as `cov / sqrt(vx * vy)`,
and it equals `1.0` iff `0 ≤ cov ∧ cov ^ 2 = vx * vy`.  A zero divisor
(`vx * vy = 0`, e.g. a constant column) yields NaN, modelled as `none`. -/

/-- Mean of a column. -/
def colMean (l : List ℚ) : ℚ :=
  l.sum / l.length

/-- Source `Σ (x - mean xs) * (y - mean ys)` over paired entries. -/
def covList (xs ys : List ℚ) : ℚ :=
  ((xs.zip ys).map (fun p => (p.1 - colMean xs) * (p.2 - colMean ys))).sum

/-- Source `Σ (x - mean xs)^2`. -/
def varList (xs : List ℚ) : ℚ :=
  covList xs xs

/-- One Pearson entry in `(covariance, product of variances)` representation;
`none` is NaN. -/
def corrRepr (xs ys : List ℚ) : Option (ℚ × ℚ) :=
  if varList xs * varList ys = 0 then none
  else some (covList xs ys, varList xs * varList ys)

/-- The four numeric columns `expenditure`, `month_num`, `day_num`, `weekday`
(lines 241-246). -/
def corrCol (rows : List Row) : Fin 4 → List ℚ
  | ⟨0, _⟩ => rows.map Row.expenditure
  | ⟨1, _⟩ => rows.map (fun r => (r.date.month : ℚ))
  | ⟨2, _⟩ => rows.map (fun r => (r.date.day : ℚ))
  | ⟨3, _⟩ => rows.map (fun r => (weekday r.date : ℚ))

/-- Source `corr_data = numerical_df[corr_columns].corr()` (line 247), as a 4×4
matrix of represented entries. -/
def corr_data (rows : List Row) (i j : Fin 4) : Option (ℚ × ℚ) :=
  corrRepr (corrCol rows i) (corrCol rows j)

/-- A represented correlation entry holds the float value `1.0`. -/
def reprIsOne : Option (ℚ × ℚ) → Prop
  | none => False
  | some (c, d) => 0 ≤ c ∧ c ^ 2 = d

instance : DecidablePred reprIsOne := by
  intro o
  unfold reprIsOne
  match o with
  | none => exact inferInstanceAs (Decidable False)
  | some (c, d) => exact inferInstanceAs (Decidable (0 ≤ c ∧ c ^ 2 = d))

/-! ### The chart battery (data payloads only; pixel rendering is out of scope) -/

/-- One chart of the battery, carrying the derived table/series it plots.
Charts whose payload no property inspects are carried payload-free. -/
inductive Chart where
  | categoryBar : List (String × ℚ) → Chart
  | monthlyTrend : List ((Nat × Nat) × ℚ) → List ℚ → Chart
  | categoryPie : List (String × ℚ) → Chart
  | histogram : Chart
  | boxPlot : Chart
  | violinPlot : Chart
  | dayCategoryHeatmap : Chart
  | movingAverage : List ((Nat × Nat × Nat) × ℚ) → List ℚ → Chart
  | topTable : List (Nat × Row) → Chart
  | correlationHeatmap : Chart
  | dayOfMonthBar : List (Nat × ℚ) → Chart
  | categoryCountBar : List (String × Nat) → Chart
  | categoryAvgBar : List (String × ℚ × ℚ) → Chart
  | cumulativeTime : Chart
deriving DecidableEq

/-- Source `category_totals.sort_values(ascending=False)` (line 72): totals by value
descending, ties in ascending-label (groupby) order via stable sort. -/
def category_totals_desc (rows : List Row) : List (String × ℚ) :=
  (category_totals rows).mergeSort (fun a b => b.2 ≤ a.2)

/-- The chart list appended by lines 64-319, in order; the day-of-week
heatmap, moving-average and top-10 charts are conditional. -/
def chartsOf (rows : List Row) : List Chart :=
  [Chart.categoryBar (category_totals_desc rows),
   Chart.monthlyTrend (monthly_data rows) (cumsum ((monthly_data rows).map Prod.snd)),
   Chart.categoryPie (category_totals rows),
   Chart.histogram, Chart.boxPlot, Chart.violinPlot] ++
  (if 1 < (distinctKeys (rows.map (fun r => weekday r.date))).length ∧
      1 < (distinctKeys (rows.map Row.category)).length
   then [Chart.dayCategoryHeatmap] else []) ++
  (if 7 < rows.length
   then [Chart.movingAverage (daily_spending rows)
           (ma_7 ((daily_spending rows).map Prod.snd))]
   else []) ++
  (match top_transactions rows with
   | some t => [Chart.topTable t]
   | none => []) ++
  [Chart.correlationHeatmap,
   Chart.dayOfMonthBar (day_spending rows),
   Chart.categoryCountBar (category_counts rows),
   Chart.categoryAvgBar (category_stats rows),
   Chart.cumulativeTime]

/-! ### `analyze_transactions` (lines 12-321) -/

/-- Outcome of one `analyze_transactions` call.  `noData` is the early return
`("No transactions available yet.", [])` (line 19); `missingCols` the early
return `("Missing columns: ...", [])` carrying the missing names (line 25);
`ok` the normal `(summary, charts)` return with the interpolated statistics
kept structured; `err` an exception escaping the function. -/
inductive AnalyzeResult where
  | noData : AnalyzeResult
  | missingCols : List String → AnalyzeResult
  | ok : Summary → List Chart → AnalyzeResult
  | err : String → AnalyzeResult
deriving DecidableEq

/-- Shallow embedding of `analyze_transactions`.  Control flow of the source:
empty-frame check (line 18) precedes the schema check (lines 22-25); cleaning
(lines 28-29) precedes the statistics.  When every row is dropped by cleaning
the statistics run on an empty frame and `idxmax` (line 50) raises; when the
expenditure column carries non-numeric text (object dtype) the numeric
statistics raise a TypeError. -/
def analyze_transactions (f : Frame) : AnalyzeResult :=
  if f.rows.isEmpty then AnalyzeResult.noData
  else if ¬ (missingCols f).isEmpty then AnalyzeResult.missingCols (missingCols f)
  else
    let kept := cleanRows f.rows
    if kept.isEmpty then AnalyzeResult.err "attempt to get argmax of an empty sequence"
    else if ¬ expColumnNumeric f.rows then
      AnalyzeResult.err "could not convert expenditure column to numeric"
    else
      let rows := kept.map toRow
      match top_cat rows with
      | Except.error e => AnalyzeResult.err e
      | Except.ok tc =>
          AnalyzeResult.ok
            { total := total_spent rows
              avg := avg_spent rows
              median := median_spent rows
              max := max_spent rows
              min := min_spent rows
              variance := var_spent rows
              topCategory := tc
              transaction_count := rows.length }
            (chartsOf rows)

/-- Summary projection of a result. -/
def resultSummary : AnalyzeResult → Option Summary
  | AnalyzeResult.ok s _ => some s
  | _ => none

/-- Chart-list projection of a result. -/
def resultCharts : AnalyzeResult → Option (List Chart)
  | AnalyzeResult.ok _ c => some c
  | _ => none

/-! ### `get_spending_insights` (lines 336-375) -/

/-- One generated insight, carrying the interpolated values. -/
inductive Insight where
  | topCategory : String → ℚ → Insight
  | avgTransaction : ℚ → Insight
  | maxPurchase : String → ℚ → Insight
  | trend : String → Insight
  | freqCategory : String → Nat → Insight
deriving DecidableEq

/-- Source `df.loc[df['expenditure'].idxmax(), 'product_name']` (line 360): product
name of the first row attaining the maximal expenditure. -/
def maxPurchaseProduct : List Row → String
  | [] => ""
  | r :: rs => (rs.foldl (fun best q => if best.expenditure < q.expenditure then q else best) r).product_name

/-- Source `Series.mode()[0]` (line 371): among labels of maximal count, the
lexicographically least (`mode` returns its values sorted ascending). -/
def modeCategory (rows : List Row) : Except String String :=
  idxmax (((distinctKeys (rows.map Row.category)).mergeSort strLe).map
    (fun c => (c, ((rows.filter (fun r => decide (r.category = c))).length : ℚ))))

/-- Lines 347-375 of `get_spending_insights`, on the cleaned working set.
`idxmax` on line 350 raises when the set is empty; the trend insight is
emitted only when more than one month bucket exists (line 366), labelled
`increasing` iff the last month total strictly exceeds the first. -/
def insightsOfRows (rows : List Row) : Except String (List Insight) :=
  match top_cat rows, modeCategory rows with
  | Except.error e, _ => Except.error e
  | _, Except.error e => Except.error e
  | Except.ok tc, Except.ok fc =>
      let monthly := (monthly_data rows).map Prod.snd
      Except.ok
        ([Insight.topCategory tc (seriesMax ((category_totals rows).map Prod.snd)),
          Insight.avgTransaction (avg_spent rows),
          Insight.maxPurchase (maxPurchaseProduct rows) (max_spent rows)] ++
         (if 1 < monthly.length then
            [Insight.trend
              (if monthly.headD 0 < monthly.getLastD 0 then "increasing" else "decreasing")]
          else []) ++
         [Insight.freqCategory fc
            ((rows.filter (fun r => decide (r.category = fc))).length)])

/-- Shallow embedding of `get_spending_insights`: empty frame yields `[]`
(line 342); a frame lacking a required data column raises a KeyError; an
object-dtype expenditure column makes the numeric statistics raise; otherwise
the insights of the cleaned working set (which raise on line 350 when the
cleaned set is empty). -/
def get_spending_insights (f : Frame) : Except String (List Insight) :=
  if f.rows.isEmpty then Except.ok []
  else if ¬ (missingCols f).isEmpty then Except.error "KeyError"
  else if ¬ expColumnNumeric f.rows then
    Except.error "could not convert expenditure column to numeric"
  else insightsOfRows (workingRows f)

/-- Cleaning rule as the specification words it (for comparison with the
implemented `cleanRows`): drop a row whose date fails to parse *or whose
expenditure is missing or non-numeric*. -/
def cleanKeepSpec (r : RawRow) : Bool :=
  r.date_added.isSome &&
    (match r.expenditure with | ExpCell.num _ => true | _ => false)

/-! ### Concrete datasets used in the property checks -/

/-- January 5, 2024. -/
def dJan5 : Date := ⟨2024, 1, 5, 0⟩

/-- January 10, 2024. -/
def dJan10 : Date := ⟨2024, 1, 10, 0⟩

/-- January 15, 2024. -/
def dJan15 : Date := ⟨2024, 1, 15, 0⟩

/-- The three-record working set `[{cat:A,amt:10},{cat:A,amt:20},{cat:B,amt:5}]`. -/
def aggRows : List Row :=
  [⟨"pA1", "A", 10, dJan5⟩, ⟨"pA2", "A", 20, dJan10⟩, ⟨"pB", "B", 5, dJan15⟩]

/-- The same three records as a loaded frame. -/
def aggFrame : Frame :=
  ⟨expected_cols,
   [⟨"pA1", "A", ExpCell.num 10, some dJan5⟩,
    ⟨"pA2", "A", ExpCell.num 20, some dJan10⟩,
    ⟨"pB", "B", ExpCell.num 5, some dJan15⟩]⟩

/-- A non-empty frame whose single row has an unparseable date, so cleaning
drops every row. -/
def allDirtyFrame : Frame :=
  ⟨expected_cols, [⟨"item", "A", ExpCell.num 10, none⟩]⟩

/-- A raw row with a parseable date but non-numeric expenditure text. -/
def textExpRow : RawRow :=
  ⟨"w", "A", ExpCell.text "abc", some dJan5⟩

/-- Ten records, two of them with unparseable dates; the eight valid rows
spend 10…80 on consecutive January 2024 days in category `A`. -/
def tenRowFrame : Frame :=
  ⟨expected_cols,
   [⟨"p1", "A", ExpCell.num 10, some ⟨2024, 1, 1, 0⟩⟩,
    ⟨"p2", "A", ExpCell.num 20, some ⟨2024, 1, 2, 0⟩⟩,
    ⟨"bad1", "A", ExpCell.num 99, none⟩,
    ⟨"p3", "A", ExpCell.num 30, some ⟨2024, 1, 3, 0⟩⟩,
    ⟨"p4", "A", ExpCell.num 40, some ⟨2024, 1, 4, 0⟩⟩,
    ⟨"p5", "A", ExpCell.num 50, some ⟨2024, 1, 5, 0⟩⟩,
    ⟨"bad2", "A", ExpCell.num 99, none⟩,
    ⟨"p6", "A", ExpCell.num 60, some ⟨2024, 1, 6, 0⟩⟩,
    ⟨"p7", "A", ExpCell.num 70, some ⟨2024, 1, 7, 0⟩⟩,
    ⟨"p8", "A", ExpCell.num 80, some ⟨2024, 1, 8, 0⟩⟩]⟩

/-- A two-month working set whose second month has a negative total. -/
def negMonthRows : List Row :=
  [⟨"a", "A", 10, ⟨2024, 1, 1, 0⟩⟩, ⟨"b", "A", -5, ⟨2024, 2, 1, 0⟩⟩]

/-- A one-row working set: every correlation column is constant. -/
def singleRowSet : List Row :=
  [⟨"pA1", "A", 10, dJan5⟩]

/-- A non-empty frame with the `category` column absent from the header. -/
def noCategoryFrame : Frame :=
  ⟨["product_name", "expenditure", "date_added"],
   [⟨"x", "A", ExpCell.num 1, some dJan5⟩]⟩

/-- A header-only frame (zero data rows) that is also missing required columns. -/
def emptyHeaderFrame : Frame :=
  ⟨["product_name"], []⟩

/-- Ten working rows with tied expenditures (two 9s, two 5s) for the top-10
tie-break check. -/
def tieRows : List Row :=
  [⟨"a", "A", 5, dJan5⟩, ⟨"b", "A", 9, dJan5⟩, ⟨"c", "A", 9, dJan5⟩,
   ⟨"d", "A", 1, dJan5⟩, ⟨"e", "A", 2, dJan5⟩, ⟨"f", "A", 3, dJan5⟩,
   ⟨"g", "A", 4, dJan5⟩, ⟨"h", "A", 5, dJan5⟩, ⟨"i", "A", 6, dJan5⟩,
   ⟨"j", "A", 7, dJan5⟩]

/-- Four working rows (below the top-10 threshold). -/
def fourRows : List Row :=
  [⟨"a", "A", 1, dJan5⟩, ⟨"b", "A", 2, dJan5⟩, ⟨"c", "A", 3, dJan5⟩,
   ⟨"d", "A", 4, dJan5⟩]

/-- A frame with two months of equal totals. -/
def equalMonthsFrame : Frame :=
  ⟨expected_cols,
   [⟨"a", "A", ExpCell.num 10, some ⟨2024, 1, 1, 0⟩⟩,
    ⟨"b", "A", ExpCell.num 10, some ⟨2024, 2, 1, 0⟩⟩]⟩

/-! ### Supporting lemmas -/

/-- Membership through the `distinctKeys` fold, generalized over the seed. -/
theorem distinctKeys_fold_mem {κ : Type} [DecidableEq κ] (l : List κ) :
    ∀ (acc : List κ) (x : κ),
      (x ∈ l.foldl (fun acc k => if k ∈ acc then acc else acc.concat k) acc ↔
        x ∈ acc ∨ x ∈ l) := by
  induction l with
  | nil => simp
  | cons k ks ih =>
      intro acc x
      simp only [List.foldl_cons]
      rw [ih]
      by_cases hk : k ∈ acc
      · simp only [if_pos hk, List.mem_cons]
        constructor
        · rintro (h | h) <;> tauto
        · rintro (h | h | h)
          · tauto
          · exact Or.inl (h ▸ hk)
          · tauto
      · simp only [if_neg hk, List.concat_eq_append, List.mem_append,
          List.mem_singleton, List.mem_cons]
        tauto

/-- The distinct keys of a list are exactly its members. -/
theorem mem_distinctKeys {κ : Type} [DecidableEq κ] (l : List κ) (x : κ) :
    x ∈ distinctKeys l ↔ x ∈ l := by
  rw [distinctKeys, distinctKeys_fold_mem]
  simp

/-- The `distinctKeys` fold preserves freedom from duplicates. -/
theorem distinctKeys_fold_nodup {κ : Type} [DecidableEq κ] (l : List κ) :
    ∀ (acc : List κ), acc.Nodup →
      (l.foldl (fun acc k => if k ∈ acc then acc else acc.concat k) acc).Nodup := by
  induction l with
  | nil => intro acc h; simpa using h
  | cons k ks ih =>
      intro acc h
      simp only [List.foldl_cons]
      by_cases hk : k ∈ acc
      · rw [if_pos hk]; exact ih acc h
      · rw [if_neg hk]
        refine ih _ ?_
        simp [List.concat_eq_append, List.nodup_append, h, hk]

/-- Distinct keys carry no duplicates. -/
theorem distinctKeys_nodup {κ : Type} [DecidableEq κ] (l : List κ) :
    (distinctKeys l).Nodup :=
  distinctKeys_fold_nodup l [] List.nodup_nil

/-- Splitting a mapped sum along a Boolean filter. -/
theorem sum_map_filter_split {α : Type} (p : α → Bool) (val : α → ℚ) (l : List α) :
    ((l.filter p).map val).sum + ((l.filter (fun a => ! p a)).map val).sum =
      (l.map val).sum := by
  induction l with
  | nil => simp
  | cons a as ih =>
      cases hp : p a <;>
        simp [List.filter_cons, hp, ← ih, add_left_comm, add_comm, add_assoc]

/-- Grouping a list by keys drawn from a duplicate-free covering key list
partitions its mapped sum. -/
theorem sum_groups_eq {α κ : Type} [DecidableEq κ] (key : α → κ) (val : α → ℚ) :
    ∀ (ks : List κ), ks.Nodup → ∀ (l : List α), (∀ a ∈ l, key a ∈ ks) →
      (ks.map (fun k => ((l.filter (fun a => decide (key a = k))).map val).sum)).sum
        = (l.map val).sum := by
  intro ks
  induction ks with
  | nil =>
      intro _ l hl
      cases l with
      | nil => simp
      | cons a as => exact absurd (hl a (by simp)) (by simp)
  | cons k ks ih =>
      intro hnd l hl
      have hks : ks.Nodup := (List.nodup_cons.mp hnd).2
      have hknot : k ∉ ks := (List.nodup_cons.mp hnd).1
      simp only [List.map_cons, List.sum_cons]
      have hsplit := sum_map_filter_split (fun a => decide (key a = k)) val l
      have hcongr :
          (ks.map (fun k' => ((l.filter (fun a => decide (key a = k'))).map val).sum)) =
          (ks.map (fun k' =>
            (((l.filter (fun a => ! decide (key a = k))).filter
              (fun a => decide (key a = k'))).map val).sum)) := by
        apply List.map_congr_left
        intro k' hk'
        have hkk : k' ≠ k := fun h => hknot (h ▸ hk')
        have hfeq : l.filter (fun a => decide (key a = k')) =
            (l.filter (fun a => ! decide (key a = k))).filter
              (fun a => decide (key a = k')) := by
          rw [List.filter_filter]
          apply List.filter_congr
          intro a _
          by_cases h : key a = k'
          · simp [h, hkk]
          · simp [h]
        rw [hfeq]
      rw [hcongr, ih hks _ ?_]
      · exact hsplit
      · intro a ha
        have := hl a (List.mem_of_mem_filter ha)
        have hne := List.of_mem_filter ha
        simp only [Bool.not_eq_true', decide_eq_false_iff_not] at hne
        rcases List.mem_cons.mp this with h | h
        · exact absurd h hne
        · exact h

/-- The values of a `groupSum` sum to the mapped sum of the whole list. -/
theorem groupSum_snd_sum {α κ : Type} [DecidableEq κ] (le : κ → κ → Bool)
    (key : α → κ) (val : α → ℚ) (l : List α) :
    ((groupSum le key val l).map Prod.snd).sum = (l.map val).sum := by
  unfold groupSum
  rw [List.map_map]
  have hperm :
      List.Perm
        (((distinctKeys (l.map key)).mergeSort le).map
          (Prod.snd ∘ fun k => (k, ((l.filter (fun a => decide (key a = k))).map val).sum)))
        ((distinctKeys (l.map key)).map
          (Prod.snd ∘ fun k => (k, ((l.filter (fun a => decide (key a = k))).map val).sum))) :=
    (List.mergeSort_perm _ _).map _
  rw [hperm.sum_eq]
  exact sum_groups_eq key val _ (distinctKeys_nodup _) l
    (fun a ha => (mem_distinctKeys _ _).mpr (List.mem_map_of_mem key ha))

/-- Every group value of a `groupSum` over nonnegative values is nonnegative. -/
theorem groupSum_snd_nonneg {α κ : Type} [DecidableEq κ] (le : κ → κ → Bool)
    (key : α → κ) (val : α → ℚ) (l : List α) (h : ∀ a ∈ l, 0 ≤ val a) :
    ∀ q ∈ (groupSum le key val l).map Prod.snd, 0 ≤ q := by
  intro q hq
  simp only [groupSum, List.map_map, List.mem_map, Function.comp] at hq
  obtain ⟨k, _, rfl⟩ := hq
  exact List.sum_nonneg (by
    intro x hx
    obtain ⟨a, ha, rfl⟩ := List.mem_map.mp hx
    exact h a (List.mem_of_mem_filter ha))

/-- A running-sum list over nonnegative increments never decreases. -/
theorem cumsumGo_chain (l : List ℚ) :
    ∀ (acc : ℚ), (∀ x ∈ l, 0 ≤ x) → List.Chain' (· ≤ ·) (cumsumGo acc l) := by
  induction l with
  | nil => intro acc _; simp [cumsumGo]
  | cons x xs ih =>
      intro acc h
      have hx : 0 ≤ x := h x (by simp)
      have htail := ih (acc + x) (fun y hy => h y (by simp [hy]))
      cases xs with
      | nil => simp [cumsumGo]
      | cons y ys =>
          have hy : 0 ≤ y := h y (by simp)
          rw [cumsumGo, cumsumGo, List.chain'_cons]
          rw [cumsumGo] at htail
          exact ⟨by linarith, htail⟩

/-- The last running sum is the seed plus the total. -/
theorem cumsumGo_getLastD (l : List ℚ) :
    ∀ (acc : ℚ), (cumsumGo acc l).getLastD acc = acc + l.sum := by
  induction l with
  | nil => intro acc; simp [cumsumGo]
  | cons x xs ih =>
      intro acc
      rw [cumsumGo, List.getLastD_cons, ih (acc + x)]
      simp [add_assoc]

/-- Order on month buckets is transitive. -/
theorem monthLe_trans (a b c : Nat × Nat) :
    monthLe a b = true → monthLe b c = true → monthLe a c = true := by
  simp only [monthLe, Bool.or_eq_true, decide_eq_true_eq, Bool.and_eq_true, beq_iff_eq]
  omega

/-- Order on month buckets is total. -/
theorem monthLe_total (a b : Nat × Nat) :
    (monthLe a b || monthLe b a) = true := by
  simp only [monthLe, Bool.or_eq_true, decide_eq_true_eq, Bool.and_eq_true, beq_iff_eq]
  omega

/-- The month keys of `monthly_data` come out in chronological order. -/
theorem monthly_keys_sorted (rows : List Row) :
    ((monthly_data rows).map Prod.fst).Pairwise (fun a b => monthLe a b = true) := by
  unfold monthly_data groupSum
  rw [List.map_map]
  have : (Prod.fst ∘ fun k : Nat × Nat =>
      (k, ((rows.filter (fun a => decide (monthKey a = k))).map Row.expenditure).sum)) =
      id := rfl
  rw [this, List.map_id]
  exact List.sorted_mergeSort monthLe_trans monthLe_total _

/-- Paired deviation products are symmetric in the two columns. -/
theorem zip_devProd_comm (mx my : ℚ) :
    ∀ (xs ys : List ℚ),
      ((xs.zip ys).map (fun p => (p.1 - mx) * (p.2 - my))).sum =
      ((ys.zip xs).map (fun p => (p.1 - my) * (p.2 - mx))).sum := by
  intro xs
  induction xs with
  | nil => intro ys; simp
  | cons x xs ih =>
      intro ys
      cases ys with
      | nil => simp
      | cons y ys =>
          simp only [List.zip_cons_cons, List.map_cons, List.sum_cons, ih ys]
          ring_nf

/-- Covariance is symmetric. -/
theorem covList_comm (xs ys : List ℚ) : covList xs ys = covList ys xs := by
  unfold covList
  exact zip_devProd_comm (colMean xs) (colMean ys) xs ys

/-- A list zipped with itself pairs each entry with itself. -/
theorem zip_self_eq (l : List ℚ) : l.zip l = l.map (fun x => (x, x)) := by
  induction l with
  | nil => rfl
  | cons x xs ih => simp [ih]

/-- Variance is a sum of squares, hence nonnegative. -/
theorem varList_nonneg (xs : List ℚ) : 0 ≤ varList xs := by
  unfold varList covList
  rw [zip_self_eq, List.map_map]
  refine List.sum_nonneg ?_
  intro x hx
  obtain ⟨a, _, rfl⟩ := List.mem_map.mp hx
  exact mul_self_nonneg _

/-- Represented correlation entries are symmetric. -/
theorem corrRepr_comm (xs ys : List ℚ) : corrRepr xs ys = corrRepr ys xs := by
  unfold corrRepr
  rw [covList_comm, mul_comm (varList xs) (varList ys)]

/-- The top-10 comparison (value descending, position ascending on ties) is
transitive. -/
theorem nlargestLe_trans (a b c : Nat × Row) :
    nlargestLe a b = true → nlargestLe b c = true → nlargestLe a c = true := by
  simp only [nlargestLe, Bool.or_eq_true, decide_eq_true_eq, Bool.and_eq_true, beq_iff_eq]
  rintro (h1 | ⟨h1e, h1i⟩) (h2 | ⟨h2e, h2i⟩)
  · exact Or.inl (lt_trans h2 h1)
  · exact Or.inl (h2e ▸ h1)
  · exact Or.inl (h1e.symm ▸ h2)
  · exact Or.inr ⟨h1e.trans h2e, le_trans h1i h2i⟩

/-- The top-10 comparison is total. -/
theorem nlargestLe_total (a b : Nat × Row) :
    (nlargestLe a b || nlargestLe b a) = true := by
  simp only [nlargestLe, Bool.or_eq_true, decide_eq_true_eq, Bool.and_eq_true, beq_iff_eq]
  rcases lt_trichotomy a.2.expenditure b.2.expenditure with h | h | h
  · exact Or.inr (Or.inl h)
  · rcases Nat.le_total a.1 b.1 with hi | hi
    · exact Or.inl (Or.inr ⟨h, hi⟩)
    · exact Or.inr (Or.inr ⟨h.symm, hi⟩)
  · exact Or.inl (Or.inl h)

/-- Raising `idxmax` only happens on an empty series. -/
theorem idxmax_ok {κ : Type} (l : List (κ × ℚ)) (h : l ≠ []) :
    ∃ k, idxmax l = Except.ok k := by
  rcases l with _ | ⟨p, ps⟩
  · exact absurd rfl h
  · exact ⟨_, rfl⟩

/-- A non-empty list has non-empty distinct keys. -/
theorem distinctKeys_ne_nil {κ : Type} [DecidableEq κ] (l : List κ) (h : l ≠ []) :
    distinctKeys l ≠ [] := by
  obtain ⟨x, xs, rfl⟩ := List.exists_cons_of_ne_nil h
  intro hd
  have := (mem_distinctKeys (x :: xs) x).mpr (by simp)
  rw [hd] at this
  exact absurd this (List.not_mem_nil _)

/-- Grouping a non-empty list yields a non-empty table. -/
theorem groupSum_ne_nil {α κ : Type} [DecidableEq κ] (le : κ → κ → Bool)
    (key : α → κ) (val : α → ℚ) (l : List α) (h : l ≠ []) :
    groupSum le key val l ≠ [] := by
  intro hg
  apply distinctKeys_ne_nil (l.map key) (fun hh => h (List.map_eq_nil_iff.mp hh))
  have := congrArg List.length hg
  simp only [groupSum, List.length_map, List.length_mergeSort, List.length_nil] at this
  exact List.length_eq_zero.mp this

/-- On a non-empty working set the top-category `idxmax` succeeds. -/
theorem top_cat_ok (rows : List Row) (h : rows ≠ []) :
    ∃ tc, top_cat rows = Except.ok tc :=
  idxmax_ok _ (groupSum_ne_nil _ _ _ _ h)

/-- On a non-empty working set the mode computation succeeds. -/
theorem modeCategory_ok (rows : List Row) (h : rows ≠ []) :
    ∃ fc, modeCategory rows = Except.ok fc := by
  apply idxmax_ok
  intro hg
  apply distinctKeys_ne_nil (rows.map Row.category)
    (fun hh => h (List.map_eq_nil_iff.mp hh))
  have := congrArg List.length hg
  simp only [List.length_map, List.length_mergeSort, List.length_nil] at this
  exact List.length_eq_zero.mp this

/-! ### Claim checks -/

/-- C1: a non-empty source whose rows all fail cleaning is *not* treated as
the empty result.  The engine never re-checks emptiness after cleaning, so
the statistics run on the emptied working set and the top-category `idxmax`
(line 50) raises `ValueError: attempt to get argmax of an empty sequence`;
`get_spending_insights` raises identically at line 350.  The "no data yet"
outcome is never produced for such a source. -/
theorem allDroppedRaises :
    allDirtyFrame.rows ≠ [] ∧
    cleanRows allDirtyFrame.rows = [] ∧
    analyze_transactions allDirtyFrame =
      AnalyzeResult.err "attempt to get argmax of an empty sequence" ∧
    analyze_transactions allDirtyFrame ≠ AnalyzeResult.noData ∧
    get_spending_insights allDirtyFrame =
      Except.error "attempt to get argmax of an empty sequence" := by
  refine ⟨by decide, by decide, by decide, by decide, ?_⟩
  simp [get_spending_insights, insightsOfRows, allDirtyFrame, expected_cols, missingCols,
    cleanRows, isNaN, expColumnNumeric, workingRows, toRow, category_totals, top_cat,
    modeCategory, idxmax, groupSum, distinctKeys, List.mergeSort]

/-- C2 counterexample: a row whose expenditure is present but non-numeric
text is *kept* by the cleaning step (`dropna` only drops NaN/NaT), although
the claim's rule — drop rows whose expenditure is missing *or non-numeric* —
would drop it. -/
theorem nonNumericKeptCounterexample :
    cleanRows [textExpRow] = [textExpRow] ∧
    List.filter cleanKeepSpec [textExpRow] = [] ∧
    textExpRow.date_added.isSome = true := by
  refine ⟨by decide, by decide, by decide⟩

/-- C2 (amended): cleaning drops exactly the rows whose date fails to parse
or whose expenditure is *missing*; non-numeric text expenditures survive.
On the ten-record frame with two unparseable dates the working set has
exactly 8 rows and every summary statistic is computed over those 8
(total 360, mean 45, median 45, max 80, min 10, sample variance 600,
top category `A`, count 8). -/
theorem cleaningDrops (rows : List RawRow) :
    (∀ r, r ∈ cleanRows rows ↔
      (r ∈ rows ∧ r.date_added.isSome ∧ r.expenditure ≠ ExpCell.empty)) ∧
    (cleanRows tenRowFrame.rows).length = 8 ∧
    resultSummary (analyze_transactions tenRowFrame) =
      some ⟨360, 45, 45, 80, 10, 600, "A", 8⟩ := by
  refine ⟨?_, by decide, ?_⟩
  · intro r
    constructor
    · intro h
      have h1 := List.of_mem_filter h
      refine ⟨List.mem_of_mem_filter h, ?_, ?_⟩
      · exact (Bool.and_eq_true _ _ |>.mp h1).1
      · have h2 := (Bool.and_eq_true _ _ |>.mp h1).2
        cases hc : r.expenditure <;> simp [hc, isNaN] at h2 ⊢
    · rintro ⟨hmem, hdate, hexp⟩
      refine List.mem_filter.mpr ⟨hmem, ?_⟩
      rw [Bool.and_eq_true]
      refine ⟨hdate, ?_⟩
      cases hc : r.expenditure
      case empty => exact absurd hc hexp
      all_goals simp [isNaN]
  · simp [resultSummary, analyze_transactions, tenRowFrame, expected_cols, missingCols,
      cleanRows, isNaN, expColumnNumeric, workingRows, toRow, total_spent, avg_spent,
      median_spent, seriesMax, max_spent, min_spent, var_spent, category_totals, top_cat,
      idxmax, groupSum, distinctKeys, strLe, charListLe, List.mergeSort]
    repeat (first | rfl | norm_num | simp)

/-- C2 witness: the amended characterization applied to the concrete
text-expenditure row. -/
theorem cleaningDropsWitness : textExpRow ∈ cleanRows [textExpRow] :=
  ((cleaningDrops [textExpRow]).1 textExpRow).mpr (by decide)

/-- C5: on `[{cat:A,amt:10},{cat:A,amt:20},{cat:B,amt:5}]` the engine
produces category totals `{A:30, B:5}`, top category `A`, overall mean
`35/3` (which rounds to 11.67), and category counts `{A:2, B:1}`; the
frame-level summary carries the same aggregates. -/
theorem aggregationValues :
    category_totals aggRows = [("A", 30), ("B", 5)] ∧
    top_cat aggRows = Except.ok "A" ∧
    avg_spent aggRows = 35 / 3 ∧
    round (avg_spent aggRows * 100) = 1167 ∧
    category_counts aggRows = [("A", 2), ("B", 1)] ∧
    resultSummary (analyze_transactions aggFrame) =
      some ⟨35, 35 / 3, 10, 20, 5, 175 / 3, "A", 3⟩ := by
  refine ⟨?_, ?_, ?_, ?_, ?_, ?_⟩
  all_goals
    simp [resultSummary, analyze_transactions, aggFrame, aggRows, expected_cols, missingCols,
      cleanRows, isNaN, expColumnNumeric, workingRows, toRow, total_spent, avg_spent,
      median_spent, seriesMax, max_spent, min_spent, var_spent, category_totals,
      category_counts, top_cat, idxmax, groupSum, distinctKeys, strLe, charListLe,
      dJan5, dJan10, dJan15, round_eq, List.mergeSort]
  all_goals repeat (first | rfl | norm_num | simp)

/-- C6: a non-empty frame missing required columns stops with the
missing-columns outcome, which names exactly the absent required fields;
no statistics or charts are attached to that outcome. -/
theorem schemaGate (f : Frame) (h1 : f.rows ≠ []) (h2 : missingCols f ≠ []) :
    analyze_transactions f = AnalyzeResult.missingCols (missingCols f) ∧
    ∀ c, c ∈ missingCols f ↔ (c ∈ expected_cols ∧ ¬ f.columns.contains c) := by
  constructor
  · unfold analyze_transactions
    simp only [List.isEmpty_iff, List.isEmpty_eq_false]
    rw [if_neg, if_pos]
    · exact h2
    · simp [h1]
  · intro c
    simp [missingCols, List.mem_filter]

/-- C6 witness: the schema gate at a concrete frame lacking `category`. -/
theorem schemaGateWitness :
    analyze_transactions noCategoryFrame = AnalyzeResult.missingCols ["category"] ∧
    ("category" ∈ missingCols noCategoryFrame ∧
      ¬ noCategoryFrame.columns.contains "category") := by
  have h := schemaGate noCategoryFrame (by decide) (by decide)
  refine ⟨?_, (h.2 "category").mpr ⟨by decide, by decide⟩, by decide⟩
  rw [h.1]
  decide

/-- C10: a frame with zero data rows returns the no-data outcome before the
schema is inspected (line 18 precedes lines 22-25), whatever the header. -/
theorem emptyPrecedesSchema (f : Frame) (h : f.rows = []) :
    analyze_transactions f = AnalyzeResult.noData := by
  unfold analyze_transactions
  simp [h]

/-- C10 witness: a header-only frame that is simultaneously missing required
columns still yields the no-data outcome, not the schema error. -/
theorem emptyPrecedesSchemaWitness :
    analyze_transactions emptyHeaderFrame = AnalyzeResult.noData ∧
    missingCols emptyHeaderFrame ≠ [] :=
  ⟨emptyPrecedesSchema emptyHeaderFrame rfl, by decide⟩

/-- C3 counterexample: expenditure is not forced to be nonnegative, and with
a negative month total the monthly cumulative series decreases: the two-row
dataset spends 10 in 2024-01 and −5 in 2024-02, so the cumulative series is
[10, 5], which is not non-decreasing. -/
theorem negativeMonthCounterexample :
    (monthly_data negMonthRows).map Prod.snd = [10, -5] ∧
    cumsum ((monthly_data negMonthRows).map Prod.snd) = [10, 5] ∧
    ¬ List.Chain' (· ≤ ·) (cumsum ((monthly_data negMonthRows).map Prod.snd)) := by
  have h1 : (monthly_data negMonthRows).map Prod.snd = [10, -5] := by
    simp [monthly_data, groupSum, distinctKeys, monthKey, monthLe, negMonthRows,
      List.mergeSort]
  have h2 : cumsum ((monthly_data negMonthRows).map Prod.snd) = [10, 5] := by
    rw [h1]
    norm_num [cumsum, cumsumGo]
  refine ⟨h1, h2, ?_⟩
  rw [h2]
  simp only [List.chain'_cons, List.chain'_singleton, and_true]
  norm_num

/-- C3 (amended): the monthly cumulative series is computed over month
buckets in chronological order and ends at the overall total of the cleaned
dataset; it is non-decreasing whenever every expenditure is nonnegative
(which the pipeline expects but does not enforce). -/
theorem monthlyCumsum (rows : List Row) :
    ((∀ r ∈ rows, 0 ≤ r.expenditure) →
      List.Chain' (· ≤ ·) (cumsum ((monthly_data rows).map Prod.snd))) ∧
    (cumsum ((monthly_data rows).map Prod.snd)).getLastD 0 = total_spent rows ∧
    ((monthly_data rows).map Prod.fst).Pairwise (fun a b => monthLe a b = true) := by
  refine ⟨?_, ?_, monthly_keys_sorted rows⟩
  · intro h
    exact cumsumGo_chain _ 0 (groupSum_snd_nonneg _ _ _ _ h)
  · rw [cumsum, cumsumGo_getLastD, zero_add]
    exact groupSum_snd_sum monthLe monthKey Row.expenditure rows

/-- C3 witness: the amended statement at the three-record dataset, whose
expenditures are nonnegative: the cumulative series never decreases, and its
last value is the total 35. -/
theorem monthlyCumsumWitness :
    List.Chain' (· ≤ ·) (cumsum ((monthly_data aggRows).map Prod.snd)) ∧
    (cumsum ((monthly_data aggRows).map Prod.snd)).getLastD 0 = total_spent aggRows := by
  have h := monthlyCumsum aggRows
  refine ⟨h.1 ?_, h.2.1⟩
  intro r hr
  simp only [aggRows, List.mem_cons, List.not_mem_nil, or_false] at hr
  rcases hr with h' | h' | h' <;> subst h' <;> norm_num

/-- C7: the 7-day trailing moving average of the daily series: on daily
totals [10, 20, 30] it is [10, 15, 20]; in general the series has one entry
per day, and the entry at position i is the mean of the trailing window of
the last min(i+1, 7) daily totals — the window is never empty, so no entry
is NaN (minimum-periods = 1 semantics). -/
theorem movingAverageWindows :
    ma_7 [10, 20, 30] = [10, 15, 20] ∧
    ∀ (l : List ℚ), (ma_7 l).length = l.length ∧
      ∀ i, i < l.length →
        ((l.take (i + 1)).drop (i + 1 - 7)).length = min (i + 1) 7 ∧
        0 < min (i + 1) 7 ∧
        (ma_7 l).getD i 0 =
          ((l.take (i + 1)).drop (i + 1 - 7)).sum / ((min (i + 1) 7 : ℕ) : ℚ) := by
  constructor
  · simp [ma_7, List.range_succ]
    norm_num
  · intro l
    have hlen : (ma_7 l).length = l.length := by simp [ma_7]
    refine ⟨hlen, ?_⟩
    intro i hi
    have hw : ((l.take (i + 1)).drop (i + 1 - 7)).length = min (i + 1) 7 := by
      simp only [List.length_drop, List.length_take]
      omega
    refine ⟨hw, by omega, ?_⟩
    rw [List.getD_eq_getElem _ _ (hlen ▸ hi)]
    simp only [ma_7, List.getElem_map, List.getElem_range]
    rw [hw]

/-- C7 witness: the general window characterization applied at the last
position of the three-day series. -/
theorem movingAverageWindowsWitness :
    (([(10 : ℚ), 20, 30].take (2 + 1)).drop (2 + 1 - 7)).length = min (2 + 1) 7 ∧
    0 < min (2 + 1) 7 ∧
    (ma_7 [10, 20, 30]).getD 2 0 =
      (([(10 : ℚ), 20, 30].take (2 + 1)).drop (2 + 1 - 7)).sum / ((min (2 + 1) 7 : ℕ) : ℚ) :=
  (movingAverageWindows.2 [10, 20, 30]).2 2 (by norm_num)

/-- C4 counterexample: the diagonal of the correlation matrix is *not*
always 1.0: on a cleaned single-row dataset every column is constant, the
Pearson divisor is zero, and the whole matrix — diagonal included — is NaN. -/
theorem singleRowCorrCounterexample :
    singleRowSet ≠ [] ∧
    corr_data singleRowSet 0 0 = none ∧
    ¬ reprIsOne (corr_data singleRowSet 0 0) := by
  have h : corr_data singleRowSet 0 0 = none := by
    simp [corr_data, corrRepr, corrCol, singleRowSet, varList, covList, colMean,
      zip_self_eq, dJan5]
  exact ⟨by simp [singleRowSet], h, by rw [h]; exact id⟩

/-- C4 (amended): the correlation matrix over expenditure, month number, day
number and weekday number is always 4×4 (indexed by `Fin 4 × Fin 4`) and
symmetric; a diagonal entry equals 1.0 exactly when its column has nonzero
variance, and is NaN when the column is constant (for example on a
single-row dataset). -/
theorem corrMatrix (rows : List Row) (i j : Fin 4) :
    corr_data rows i j = corr_data rows j i ∧
    (varList (corrCol rows i) ≠ 0 → reprIsOne (corr_data rows i i)) ∧
    (varList (corrCol rows i) = 0 → corr_data rows i i = none) := by
  refine ⟨corrRepr_comm _ _, ?_, ?_⟩
  · intro hv
    have hcond : ¬ (varList (corrCol rows i) * varList (corrCol rows i) = 0) :=
      fun h => hv (mul_self_eq_zero.mp h)
    unfold corr_data corrRepr
    rw [if_neg hcond]
    exact ⟨varList_nonneg _, pow_two _⟩
  · intro hv
    unfold corr_data corrRepr
    rw [if_pos (by rw [hv, mul_zero])]

/-- C4 witness: on the three-record dataset the expenditure column has
nonzero variance, so the first diagonal entry is exactly 1.0. -/
theorem corrMatrixWitness : reprIsOne (corr_data aggRows 0 0) := by
  refine (corrMatrix aggRows 0 0).2.1 ?_
  simp [varList, covList, colMean, corrCol, aggRows, zip_self_eq, List.map_map]
  norm_num

/-- C8: the top-10 table exists exactly when the cleaned dataset has at
least 10 rows (with 4 records the chart list carries no such table); when
present it holds min(10, n) entries ordered by expenditure descending with
ties broken by ascending original record position. -/
theorem topTransactionsGate (rows : List Row) :
    ((top_transactions rows).isSome ↔ 10 ≤ rows.length) ∧
    (∀ t, top_transactions rows = some t →
      t.length = min 10 rows.length ∧
      t.Pairwise (fun a b : Nat × Row =>
        b.2.expenditure < a.2.expenditure ∨
          (a.2.expenditure = b.2.expenditure ∧ a.1 < b.1))) ∧
    (∀ t, Chart.topTable t ∈ chartsOf rows ↔ top_transactions rows = some t) := by
  refine ⟨?_, ?_, ?_⟩
  · unfold top_transactions
    by_cases h : 10 ≤ rows.length <;> simp [h]
  · intro t ht
    unfold top_transactions at ht
    by_cases h : 10 ≤ rows.length
    · rw [if_pos h] at ht
      have hteq : t = (rows.enum.mergeSort nlargestLe).take 10 :=
        (Option.some_inj.mp ht).symm
      subst hteq
      constructor
      · simp [List.length_take, List.length_mergeSort, List.enum_length]
      · have hs : (rows.enum.mergeSort nlargestLe).Pairwise
            (fun a b => nlargestLe a b = true) :=
          List.sorted_mergeSort nlargestLe_trans nlargestLe_total rows.enum
        have hperm := List.mergeSort_perm rows.enum nlargestLe
        have hnodup : ((rows.enum.mergeSort nlargestLe).map Prod.fst).Nodup :=
          ((hperm.map Prod.fst).nodup_iff).mpr
            (by rw [List.enum_map_fst]; exact List.nodup_range _)
        have hne : (rows.enum.mergeSort nlargestLe).Pairwise
            (fun a b : Nat × Row => a.1 ≠ b.1) :=
          (List.pairwise_map).mp hnodup
        refine ((hs.and hne).imp ?_).sublist (List.take_sublist 10 _)
        rintro a b ⟨hab, hidx⟩
        rcases (by simpa only [nlargestLe, Bool.or_eq_true, decide_eq_true_eq,
            Bool.and_eq_true, beq_iff_eq] using hab :
            b.2.expenditure < a.2.expenditure ∨
              (a.2.expenditure = b.2.expenditure ∧ a.1 ≤ b.1)) with h1 | ⟨h1, h2⟩
        · exact Or.inl h1
        · exact Or.inr ⟨h1, lt_of_le_of_ne h2 hidx⟩
    · rw [if_neg h] at ht
      exact absurd ht (by simp)
  · intro t
    rcases h : top_transactions rows with _ | t'
    all_goals
      simp only [chartsOf, h, List.mem_append, List.mem_cons, List.not_mem_nil,
        List.mem_singleton]
      split_ifs <;> simp [eq_comm]

/-- C8 witness: with four records no top-10 table exists; with ten records
(containing tied expenditures) it does, with ten sorted entries. -/
theorem topTransactionsGateWitness :
    top_transactions fourRows = none ∧
    ∃ t, top_transactions tieRows = some t ∧
      t.length = min 10 tieRows.length ∧
      t.Pairwise (fun a b : Nat × Row =>
        b.2.expenditure < a.2.expenditure ∨
          (a.2.expenditure = b.2.expenditure ∧ a.1 < b.1)) := by
  refine ⟨rfl, ?_⟩
  rcases ho : top_transactions tieRows with _ | t
  · have := (topTransactionsGate tieRows).1.mpr (by norm_num [tieRows])
    rw [ho] at this
    simp at this
  · exact ⟨t, rfl, (topTransactionsGate tieRows).2.1 t ho⟩

/-- C9: on a frame with all required columns, a numeric expenditure column
and a non-empty cleaned working set, the insights succeed, the trend insight
appears exactly when at least two distinct month buckets exist, and its
label is `increasing` when the last chronological month total strictly
exceeds the first and `decreasing` otherwise — no third label, the equal
case included. -/
theorem trendInsight (f : Frame)
    (h1 : missingCols f = []) (h2 : expColumnNumeric f.rows = true)
    (h3 : workingRows f ≠ []) :
    ∃ l, get_spending_insights f = Except.ok l ∧
      ((∃ s, Insight.trend s ∈ l) ↔ 2 ≤ (monthly_data (workingRows f)).length) ∧
      (∀ s, Insight.trend s ∈ l →
        s = if ((monthly_data (workingRows f)).map Prod.snd).headD 0 <
              ((monthly_data (workingRows f)).map Prod.snd).getLastD 0
            then "increasing" else "decreasing") := by
  obtain ⟨tc, htc⟩ := top_cat_ok _ h3
  obtain ⟨fc, hfc⟩ := modeCategory_ok _ h3
  have hrows : f.rows ≠ [] := by
    intro hr
    exact h3 (by simp [workingRows, cleanRows, hr])
  have hne : f.rows.isEmpty = false := List.isEmpty_eq_false.mpr hrows
  have hg : get_spending_insights f = insightsOfRows (workingRows f) := by
    unfold get_spending_insights
    rw [hne, h1, h2]
    simp
  have hins : insightsOfRows (workingRows f) =
      Except.ok
        ([Insight.topCategory tc
            (seriesMax ((category_totals (workingRows f)).map Prod.snd)),
          Insight.avgTransaction (avg_spent (workingRows f)),
          Insight.maxPurchase (maxPurchaseProduct (workingRows f))
            (max_spent (workingRows f))] ++
         (if 1 < ((monthly_data (workingRows f)).map Prod.snd).length then
            [Insight.trend
              (if ((monthly_data (workingRows f)).map Prod.snd).headD 0 <
                  ((monthly_data (workingRows f)).map Prod.snd).getLastD 0
               then "increasing" else "decreasing")]
          else []) ++
         [Insight.freqCategory fc
            (((workingRows f).filter (fun r => decide (r.category = fc))).length)]) := by
    unfold insightsOfRows
    rw [htc, hfc]
  refine ⟨_, hg.trans hins, ?_, ?_⟩
  · by_cases hm : 1 < ((monthly_data (workingRows f)).map Prod.snd).length
    · have hm2 : 2 ≤ (monthly_data (workingRows f)).length := by
        rw [List.length_map] at hm
        omega
      simp only [hm2, iff_true]
      refine ⟨(if ((monthly_data (workingRows f)).map Prod.snd).headD 0 <
                  ((monthly_data (workingRows f)).map Prod.snd).getLastD 0
               then "increasing" else "decreasing"), ?_⟩
      rw [if_pos hm]
      exact List.mem_append.mpr (Or.inl (List.mem_append.mpr (Or.inr
        (List.mem_singleton.mpr rfl))))
    · have hm2 : ¬ 2 ≤ (monthly_data (workingRows f)).length := by
        rw [List.length_map] at hm
        omega
      simp only [hm2, iff_false, not_exists]
      intro s hs
      rw [if_neg hm] at hs
      simp at hs
  · intro s hs
    by_cases hm : 1 < ((monthly_data (workingRows f)).map Prod.snd).length
    · rw [if_pos hm] at hs
      simp only [List.mem_append, List.mem_cons, List.mem_singleton,
        List.not_mem_nil, or_false] at hs
      rcases hs with ((h | h | h) | h) | h
      · exact absurd h (by simp)
      · exact absurd h (by simp)
      · exact absurd h (by simp)
      · injection h
      · exact absurd h (by simp)
    · rw [if_neg hm] at hs
      simp at hs

/-- C9 witness: the trend statement at a frame with two months of equal
totals — two distinct months exist, so a trend insight is present, and its
label is forced by the (non-strict) comparison, yielding `decreasing`. -/
theorem trendInsightWitness :
    (∃ l, get_spending_insights equalMonthsFrame = Except.ok l ∧
      ((∃ s, Insight.trend s ∈ l) ↔
        2 ≤ (monthly_data (workingRows equalMonthsFrame)).length) ∧
      (∀ s, Insight.trend s ∈ l →
        s = if ((monthly_data (workingRows equalMonthsFrame)).map Prod.snd).headD 0 <
              ((monthly_data (workingRows equalMonthsFrame)).map Prod.snd).getLastD 0
            then "increasing" else "decreasing")) ∧
    2 ≤ (monthly_data (workingRows equalMonthsFrame)).length ∧
    (if ((monthly_data (workingRows equalMonthsFrame)).map Prod.snd).headD 0 <
        ((monthly_data (workingRows equalMonthsFrame)).map Prod.snd).getLastD 0
      then "increasing" else "decreasing") = "decreasing" := by
  refine ⟨trendInsight equalMonthsFrame (by decide) (by decide) (by decide), ?_, ?_⟩
  · simp [monthly_data, groupSum, distinctKeys, monthKey, monthLe, workingRows,
      cleanRows, isNaN, toRow, equalMonthsFrame, expected_cols, List.mergeSort]
  · have hmap : (monthly_data (workingRows equalMonthsFrame)).map Prod.snd = [10, 10] := by
      simp [monthly_data, groupSum, distinctKeys, monthKey, monthLe, workingRows,
        cleanRows, isNaN, toRow, equalMonthsFrame, expected_cols, List.mergeSort]
    rw [hmap]
    norm_num

end FinPlanner
